import Mathlib

/-!
Verification of the akari module-dispatch framework.

The development shallowly embeds the data model (`akari/data.py`), the router
dispatch and timing protocol (`akari/router.py`), the WebRTC VAD segmentation
module (`modules/webrtcvad/vad.py`), the microphone capture sliding window
(`modules/audio/mic.py`), and the Google streaming STT session state
(`modules/google/stt.py`). Timestamps are rationals; byte strings are lists of
naturals; in-place mutation is modelled by explicit state passing.
-/

namespace Akari

/-- Raw audio byte strings are modelled as lists of byte values. -/
abbrev Bytes := List Nat

/-- Embeds `_AkariDataStreamType`: an append-only sequence of data points,
stored in the `_delta` list. -/
structure AkariDataStreamType (T : Type) where
  delta : List T
deriving DecidableEq

/-- Embeds `_AkariDataStreamType.last`, made total with `Option` (the source
raises `IndexError` on an empty stream). -/
def AkariDataStreamType.last? {T : Type} (s : AkariDataStreamType T) : Option T :=
  s.delta.getLast?

/-- Embeds `_AkariDataStreamType.__len__`. -/
def AkariDataStreamType.size {T : Type} (s : AkariDataStreamType T) : Nat :=
  s.delta.length

/-- Module type identifiers (`_AkariModuleType`): the registry keys. The python
value is a class object; an opaque identifier is enough for the router logic. -/
abbrev AkariModuleType := Nat

/-- Module parameters (`_AkariModuleParams = Any`): opaque tokens at the router
layer, which only stores and forwards them. -/
abbrev AkariModuleParams := Nat

/-- Embeds `_AkariDataModuleType`: the provenance metadata the router attaches
to a dataset. -/
structure AkariDataModuleType where
  moduleType : AkariModuleType
  params : AkariModuleParams
  streaming : Bool
  callback : Option AkariModuleType
  startTime : ℚ
  endTime : ℚ
deriving DecidableEq

/-- Embeds `_AkariDataSetType`: a typed payload with a `main` value, an
optional stream and a map of named extras. -/
structure AkariDataSetType (T : Type) where
  main : T
  stream : Option (AkariDataStreamType T) := none
  others : List (String × T) := []
deriving DecidableEq

/-- Values stored in the string-keyed `meta` dictionaries. -/
inductive MetaVal where
  | nat (n : Nat)
  | str (s : String)
  | flag (b : Bool)
deriving DecidableEq

/-- Embeds `_AkariDataSet`: one module output, with independently optional
text/audio/bool/meta payloads plus the provenance slot `module`. -/
structure AkariDataSet where
  module : Option AkariDataModuleType := none
  text : Option (AkariDataSetType String) := none
  audio : Option (AkariDataSetType Bytes) := none
  bool : Option (AkariDataSetType Bool) := none
  meta : Option (AkariDataSetType (List (String × MetaVal))) := none
deriving DecidableEq

/-- Embeds `_AkariDataSet.setModule`: store provenance on the dataset. -/
def AkariDataSet.setModule (ds : AkariDataSet) (m : AkariDataModuleType) : AkariDataSet :=
  { ds with module := some m }

/-- Embeds `_AkariData`: the ordered sequence of datasets. -/
structure AkariData where
  datasets : List AkariDataSet
deriving DecidableEq

/-- Embeds `_AkariData.add`: append a dataset at the end. -/
def AkariData.add (d : AkariData) (ds : AkariDataSet) : AkariData :=
  ⟨d.datasets ++ [ds]⟩

/-- Embeds `_AkariData.last`, made total with `Option` (the source raises
`IndexError` on an empty sequence). -/
def AkariData.last? (d : AkariData) : Option AkariDataSet :=
  d.datasets.getLast?

/-- Replaces the provenance slot of the last dataset, as
`result.last().set_module(...)` does in the router; identity on an empty
sequence (the router guards that case). -/
def AkariData.setLastModule (d : AkariData) (m : AkariDataModuleType) : AkariData :=
  match d.datasets.getLast? with
  | none => d
  | some ds => ⟨d.datasets.dropLast ++ [ds.setModule m]⟩

/-- Possible shapes of a module return value, mirroring the runtime type
dispatch in `call_module`: an `_AkariDataSet`, an `_AkariData`, or anything
else (which the router rejects). -/
inductive ModuleResult where
  | dataset (ds : AkariDataSet)
  | data (d : AkariData)
  | other

/-- A module behaviour. `run` receives the (deep-copied) input sequence and
returns its result together with the final state of the received sequence,
modelling any in-place mutation the module performed on its copy. -/
structure AkariModule where
  run : AkariData → ModuleResult × AkariData

/-- Embeds `copy.deepcopy` on an `_AkariData`: on immutable values a deep copy
is the identity; isolation shows up in the router using the original `data`
object for appending and discarding the mutated copy of the module. -/
def deepcopy (d : AkariData) : AkariData := d

/-- The module registry `self._modules`: a python dict embedded as an
insertion-ordered association list with unique keys. -/
abbrev ModuleRegistry := List (AkariModuleType × AkariModule)

/-- Dict lookup on the registry (first matching key). -/
def ModuleRegistry.lookup (reg : ModuleRegistry) (k : AkariModuleType) : Option AkariModule :=
  (reg.find? (fun p => p.1 == k)).map (fun p => p.2)

/-- Embeds `_AkariRouter.add_modules`: iterate the batch in insertion order,
registering fresh module types; on the first already-registered type raise
`ValueError`. The returned registry is the registry state at that point, since
the python dict is mutated in place and the raise does not roll it back. -/
def add_modules (reg : ModuleRegistry) : List (AkariModuleType × AkariModule) →
    ModuleRegistry × Option String
  | [] => (reg, none)
  | (k, v) :: rest =>
    if (ModuleRegistry.lookup reg k).isSome then
      (reg, some "Module already exists in router.")
    else
      add_modules (reg ++ [(k, v)]) rest

/-- The `self._thread_last_perf_counter` dict: calling-thread id to the end
time of the last streaming call on that thread. -/
abbrev ThreadMap := List (Nat × ℚ)

/-- Dict `get` on the per-thread timing map. -/
def ThreadMap.get? (m : ThreadMap) (tid : Nat) : Option ℚ :=
  (m.find? (fun p => p.1 == tid)).map (fun p => p.2)

/-- Dict assignment on the per-thread timing map. -/
def ThreadMap.set (m : ThreadMap) (tid : Nat) (v : ℚ) : ThreadMap :=
  if (m.find? (fun p => p.1 == tid)).isSome then
    m.map (fun p => if p.1 == tid then (tid, v) else p)
  else
    m ++ [(tid, v)]

/-- Outcome of `call_module`: the updated sequence and timing map, or one of
the two `ValueError` failures. -/
inductive CallOutcome where
  | ok (data : AkariData) (threads : ThreadMap)
  | moduleNotFound
  | invalidResultType

/-- The data component of a successful outcome. -/
def CallOutcome.resultData? : CallOutcome → Option AkariData
  | .ok d _ => some d
  | _ => none

/-- The provisional `start_time_for_dataset` computed before the module runs:
for a streaming call, the recorded last streaming end of this thread (falling
back to the current counter on the very first call); otherwise the end time of
the provenance of the last input record when present, else the current
counter. -/
def routerStartTime0 (streaming : Bool) (lastStreamEnd : Option ℚ)
    (data : AkariData) (currentPerf : ℚ) : ℚ :=
  if streaming then
    match lastStreamEnd with
    | none => currentPerf
    | some t => t
  else
    match data.last? with
    | some ds =>
      match ds.module with
      | some prov => prov.endTime
      | none => currentPerf
    | none => currentPerf

/-- The final `start_time_for_dataset`: on the first-ever streaming call of a
thread the provisional value is overwritten with the end time. -/
def routerStartTime (streaming : Bool) (lastStreamEnd : Option ℚ)
    (data : AkariData) (currentPerf endPerf : ℚ) : ℚ :=
  if streaming && lastStreamEnd.isNone then endPerf
  else routerStartTime0 streaming lastStreamEnd data currentPerf

/-- The provenance record `call_module` builds for this invocation. -/
def routerProvenance (moduleType : AkariModuleType) (params : AkariModuleParams)
    (streaming : Bool) (callback : Option AkariModuleType) (lastStreamEnd : Option ℚ)
    (data : AkariData) (currentPerf endPerf : ℚ) : AkariDataModuleType :=
  ⟨moduleType, params, streaming, callback,
    routerStartTime streaming lastStreamEnd data currentPerf endPerf, endPerf⟩

/-- Core of `_AkariRouter.call_module` once the module is resolved. The wall
clock is passed in: `currentPerf` is the `perf_counter` reading taken before
the module runs and `endPerf` the one taken after it returns. -/
def call_module_with (m : AkariModule) (moduleType : AkariModuleType)
    (data : AkariData) (params : AkariModuleParams) (streaming : Bool)
    (callback : Option AkariModuleType) (threads : ThreadMap) (threadId : Nat)
    (currentPerf endPerf : ℚ) : CallOutcome :=
  let lastStreamEnd := ThreadMap.get? threads threadId
  let result := (m.run (deepcopy data)).1
  let threadsAfter := if streaming then ThreadMap.set threads threadId endPerf else threads
  let prov := routerProvenance moduleType params streaming callback
    lastStreamEnd data currentPerf endPerf
  match result with
  | .dataset ds =>
    let dsTagged := if ds.module = none then ds.setModule prov else ds
    .ok (data.add dsTagged) threadsAfter
  | .data d =>
    if d.datasets = [] then .ok d threadsAfter
    else .ok (d.setLastModule prov) threadsAfter
  | .other => .invalidResultType

/-- Embeds `_AkariRouter.call_module`: registry lookup, then dispatch. -/
def call_module (reg : ModuleRegistry) (moduleType : AkariModuleType)
    (data : AkariData) (params : AkariModuleParams) (streaming : Bool)
    (callback : Option AkariModuleType) (threads : ThreadMap) (threadId : Nat)
    (currentPerf endPerf : ℚ) : CallOutcome :=
  match ModuleRegistry.lookup reg moduleType with
  | none => .moduleNotFound
  | some m =>
    call_module_with m moduleType data params streaming callback threads threadId
      currentPerf endPerf

namespace Vad

/-- The configuration of `_WebRTCVadParams` that the segmentation logic in
`stream_call` consumes. `speech_sleep_duration_ms` is kept as a rational so
that the python float division by 1000 is exact. -/
structure WebRTCVadParams where
  speechSleepDurationMs : ℚ
  callbackWhenSpeechEnded : Bool

/-- The mutable per-instance state of `_WebRTCVadModule`: the timestamp of the
last raw speech classification, the per-segment already-notified flag, and the
accumulated speech audio buffer. -/
structure VadState where
  lastSpeechTime : ℚ
  callbacked : Bool
  audioBuffer : Bytes
deriving DecidableEq

/-- State set up by `__init__`: epoch time zero, `_callbacked = True`, empty
buffer. -/
def initState : VadState := ⟨0, true, []⟩

/-- One `stream_call` invocation as the module observes it: the raw
classification of the trailing frame by `webrtcvad`, the `time.time()` reading
during the call, and the last stream chunk of the incoming audio when the
payload carries a stream. -/
structure VadFrame where
  isSpeech : Bool
  now : ℚ
  chunk : Option Bytes
deriving DecidableEq

/-- The state mutations of the `if is_speech:` branch: record the speech time,
clear the notified flag and append the last stream chunk to the buffer; a
non-speech frame leaves the state untouched at this point. -/
def speechUpdate (s : VadState) (f : VadFrame) : VadState :=
  if f.isSpeech then
    { lastSpeechTime := f.now
      callbacked := false
      audioBuffer :=
        match f.chunk with
        | some c => s.audioBuffer ++ c
        | none => s.audioBuffer }
  else s

/-- The functional speech value after the hysteresis adjustment: a raw speech
frame is speech, and a raw non-speech frame is still treated as speech while
less than `speech_sleep_duration_ms / 1000` seconds have elapsed since the
last raw speech classification. -/
def functionalSpeech (p : WebRTCVadParams) (s : VadState) (f : VadFrame) : Bool :=
  if f.isSpeech then true
  else decide (f.now - s.lastSpeechTime < p.speechSleepDurationMs / 1000)

/-- The callback guard of `stream_call`: with a configured callback, fire on
every functional speech frame when `callback_when_speech_ended` is false, and
otherwise on a functional non-speech frame that has not yet been notified for
this segment. `callbackedNow` is the flag value at the check, after the
speech-branch update. -/
def fireCondition (p : WebRTCVadParams) (hasCallback callbackedNow functional : Bool) : Bool :=
  hasCallback &&
    ((!p.callbackWhenSpeechEnded && functional) ||
      (p.callbackWhenSpeechEnded && !functional && !callbackedNow))

/-- One full `stream_call` step of the VAD state machine, returning the new
state, the functional speech value reported for the frame, and whether the
callback fired. On firing, the notified flag is set and the buffer cleared. -/
def vadStep (p : WebRTCVadParams) (hasCallback : Bool) (s : VadState) (f : VadFrame) :
    VadState × Bool × Bool :=
  if fireCondition p hasCallback (speechUpdate s f).callbacked (functionalSpeech p s f) then
    ({ speechUpdate s f with callbacked := true, audioBuffer := [] },
      functionalSpeech p s f, true)
  else
    (speechUpdate s f, functionalSpeech p s f, false)

/-- Run a sequence of frames through the VAD module, collecting the
(functional, fired) pair of every frame. -/
def vadRun (p : WebRTCVadParams) (hasCallback : Bool) (s : VadState) :
    List VadFrame → VadState × List (Bool × Bool)
  | [] => (s, [])
  | f :: fs =>
    ((vadRun p hasCallback (vadStep p hasCallback s f).1 fs).1,
      (vadStep p hasCallback s f).2
        :: (vadRun p hasCallback (vadStep p hasCallback s f).1 fs).2)

end Vad

namespace Mic

/-- The chunk-completion part of one capture-loop iteration: when
`stream_duration_milliseconds` has elapsed, the closed chunk is appended to
the rolling list (`emit = some chunk`); otherwise the list is untouched. -/
def micAppend (frames : List Bytes) (emit : Option Bytes) : List Bytes :=
  match emit with
  | some c => frames ++ [c]
  | none => frames

/-- The eviction check run at the end of every loop iteration: the oldest
chunk is dropped once `len(frames) >= destruction_ms / stream_duration_ms`
(a python float division, embedded as rational). -/
def micEvict (destructionMs streamDurationMs : ℕ) (frames : List Bytes) : List Bytes :=
  if (destructionMs : ℚ) / (streamDurationMs : ℚ) ≤ (frames.length : ℚ) then
    frames.drop 1
  else
    frames

/-- One full iteration of the capture loop of `_MicModule.call` acting on the
rolling `frames` list. -/
def micStep (destructionMs streamDurationMs : ℕ) (frames : List Bytes)
    (emit : Option Bytes) : List Bytes :=
  micEvict destructionMs streamDurationMs (micAppend frames emit)

/-- The capture loop from its start (`frames = []`) over a sequence of
iterations, each possibly completing a chunk. -/
def micRun (destructionMs streamDurationMs : ℕ) (emits : List (Option Bytes)) : List Bytes :=
  emits.foldl (micStep destructionMs streamDurationMs) []

end Mic

namespace Stt

/-- The fields of `_GoogleSpeechToTextStreamParams` that drive the session
logic of `stream_call`. -/
structure SttParams where
  sampleRateHertz : ℕ
  interimResults : Bool
  endStreamFlag : Bool
  callbackWhenFinal : Bool

/-- The lock-protected session state of `_GoogleSpeechToTextStreamModule`:
the active flag, the audio queue (`none` is the end-of-stream marker pushed at
shutdown), whether a worker thread handle is set, and the locally accumulated
transcript delta with its finality flag. -/
structure SttState where
  isStreamingActive : Bool
  audioQueue : List (Option Bytes)
  processingThread : Bool
  resultDelta : List String
  resultFinal : Bool
deriving DecidableEq

/-- State set up by `__init__`: idle, empty queue, no worker, empty delta. -/
def initState : SttState := ⟨false, [], false, [], false⟩

/-- Embeds `_stop_streaming_session`: deactivate, push the `None` end marker,
join and drop the worker handle. -/
def stopSession (s : SttState) : SttState :=
  { s with
    isStreamingActive := false
    audioQueue := s.audioQueue ++ [none]
    processingThread := false }

/-- Embeds `_start_streaming_session`: activate, drain any stale queue
entries, start the worker thread. -/
def startSession (s : SttState) : SttState :=
  { s with
    isStreamingActive := true
    audioQueue := []
    processingThread := true }

/-- The audio chunk extraction of `stream_call`: the last stream entry of the
last record when the audio payload carries a non-empty stream, else the main
audio bytes when non-empty. -/
def extractChunk (data : AkariData) : Option Bytes :=
  match data.last? with
  | none => none
  | some ds =>
    match ds.audio with
    | none => none
    | some a =>
      match a.stream with
      | some st =>
        if 0 < st.delta.length then st.delta.getLast?
        else if a.main ≠ [] then some a.main else none
      | none => if a.main ≠ [] then some a.main else none

/-- Embeds the lock-protected body of
`_GoogleSpeechToTextStreamModule.stream_call`, as seen between invocations of
the background worker (which is the only other mutator of this state). On
`end_stream_flag` the session is stopped when active and the call returns an
empty dataset; otherwise an idle session is started, a non-empty incoming
chunk is pushed onto the queue while active, and the call returns the
accumulated transcript delta, clearing it once a final result was surfaced. -/
def sttStreamCall (s : SttState) (p : SttParams) (data : AkariData) :
    SttState × AkariDataSet :=
  if p.endStreamFlag then
    if s.isStreamingActive then (stopSession s, {}) else (s, {})
  else
    let s1 := if s.isStreamingActive then s else startSession s
    let s2 :=
      match extractChunk data with
      | some c =>
        if c ≠ [] then
          if s1.isStreamingActive then
            { s1 with audioQueue := s1.audioQueue ++ [some c] }
          else s1
        else s1
      | none => s1
    let ds : AkariDataSet :=
      { text := some ⟨(s2.resultDelta.getLast?).getD "", some ⟨s2.resultDelta⟩, []⟩
        bool := some ⟨s2.resultFinal, none, []⟩ }
    if s2.resultFinal then
      ({ s2 with resultDelta := [], resultFinal := false }, ds)
    else
      (s2, ds)

end Stt

/-- A pre-populated caller sequence used to exercise `call_module_with`. -/
def sampleCallerData : AkariData :=
  ⟨[{ text := some ⟨"hello", none, []⟩ }]⟩

/-- A module that discards its received copy (returning an emptied sequence as
its final view of it, modelling an in-place clear) and produces one fresh
record. -/
def clearingModule : AkariModule :=
  ⟨fun _ => (ModuleResult.dataset { text := some ⟨"out", none, []⟩ }, ⟨[]⟩)⟩

/-- A pre-existing provenance record carried by a module result. -/
def preexistingProv : AkariDataModuleType := ⟨9, 9, false, none, 1, 2⟩

/-- A module returning a full sequence whose single record already carries
provenance. -/
def sequenceReturningModule : AkariModule :=
  ⟨fun _ => (ModuleResult.data ⟨[{ module := some preexistingProv }]⟩, ⟨[]⟩)⟩

/-- A module returning a single record that already carries provenance. -/
def provCarryingModule : AkariModule :=
  ⟨fun _ => (ModuleResult.dataset { module := some preexistingProv }, ⟨[]⟩)⟩

/-- STT parameters of a chunk-pushing call: no end-of-stream flag. -/
def pushParams : Stt.SttParams := ⟨16000, true, false, true⟩

/-- A one-record input sequence carrying a one-byte audio chunk. -/
def chunkInput : AkariData := ⟨[{ audio := some ⟨[1], none, []⟩ }]⟩

/-- The STT session state after `n` chunk-bearing stream calls, with the
background worker consuming nothing in between. -/
def sttAfterPushes : ℕ → Stt.SttState
  | 0 => Stt.initState
  | n + 1 => (Stt.sttStreamCall (sttAfterPushes n) pushParams chunkInput).1

section RouterTheorems

/-- C1: dispatching through the router hands the module a deep copy of the
input sequence, so the outcome of `call_module` does not depend on what the
module does to its received sequence, and when the module returns a single
record the router only appends that record to the original sequence, leaving
every record of the caller unchanged. -/
theorem call_module_isolates_caller_sequence
    (m : AkariModule) (moduleType : AkariModuleType) (data : AkariData)
    (params : AkariModuleParams) (streaming : Bool) (callback : Option AkariModuleType)
    (threads : ThreadMap) (threadId : Nat) (currentPerf endPerf : ℚ)
    (ds : AkariDataSet)
    (hres : (m.run (deepcopy data)).1 = ModuleResult.dataset ds) :
    (∀ m2 : AkariModule, (∀ x, (m2.run x).1 = (m.run x).1) →
      call_module_with m2 moduleType data params streaming callback threads threadId
          currentPerf endPerf
        = call_module_with m moduleType data params streaming callback threads threadId
          currentPerf endPerf)
    ∧ ∃ ds2 tm,
        call_module_with m moduleType data params streaming callback threads threadId
            currentPerf endPerf
          = CallOutcome.ok ⟨data.datasets ++ [ds2]⟩ tm := by
  constructor
  · intro m2 hagree
    unfold call_module_with
    rw [hagree]
  · refine ⟨if ds.module = none then
        ds.setModule (routerProvenance moduleType params streaming callback
          (ThreadMap.get? threads threadId) data currentPerf endPerf)
      else ds,
      if streaming then ThreadMap.set threads threadId endPerf else threads, ?_⟩
    unfold call_module_with
    rw [hres]
    rfl

/-- Witness for C1 at concrete inputs: the clearing module leaves the caller
record intact and the router appends exactly the returned record. -/
theorem call_module_isolates_caller_sequence_witness :
    ((clearingModule.run (deepcopy sampleCallerData)).1
        = ModuleResult.dataset { text := some ⟨"out", none, []⟩ })
    ∧ ((∀ m2 : AkariModule, (∀ x, (m2.run x).1 = (clearingModule.run x).1) →
        call_module_with m2 0 sampleCallerData 0 false none [] 0 2 3
          = call_module_with clearingModule 0 sampleCallerData 0 false none [] 0 2 3)
      ∧ ∃ ds2 tm,
          call_module_with clearingModule 0 sampleCallerData 0 false none [] 0 2 3
            = CallOutcome.ok ⟨sampleCallerData.datasets ++ [ds2]⟩ tm) :=
  ⟨rfl,
    call_module_isolates_caller_sequence clearingModule 0 sampleCallerData 0 false none
      [] 0 2 3 { text := some ⟨"out", none, []⟩ } rfl⟩

/-- C2: on the first-ever streaming call of a thread (no recorded last
streaming end), the provenance the router attaches has `startTime` overwritten
with `endTime`, so the reported duration is exactly zero, both when the module
returns a single record without provenance and when it returns a full
non-empty sequence. -/
theorem first_streaming_call_zero_duration
    (m : AkariModule) (moduleType : AkariModuleType) (data : AkariData)
    (params : AkariModuleParams) (callback : Option AkariModuleType)
    (threads : ThreadMap) (threadId : Nat) (currentPerf endPerf : ℚ)
    (hfirst : ThreadMap.get? threads threadId = none) :
    (∀ ds : AkariDataSet, (m.run (deepcopy data)).1 = ModuleResult.dataset ds →
      ds.module = none →
      ∃ tm prov,
        call_module_with m moduleType data params true callback threads threadId
            currentPerf endPerf
          = CallOutcome.ok (data.add (ds.setModule prov)) tm
        ∧ prov.endTime - prov.startTime = 0)
    ∧ (∀ d : AkariData, (m.run (deepcopy data)).1 = ModuleResult.data d →
      d.datasets ≠ [] →
      ∃ tm prov,
        call_module_with m moduleType data params true callback threads threadId
            currentPerf endPerf
          = CallOutcome.ok (d.setLastModule prov) tm
        ∧ prov.endTime - prov.startTime = 0) := by
  have hprov : routerProvenance moduleType params true callback
      (ThreadMap.get? threads threadId) data currentPerf endPerf
      = ⟨moduleType, params, true, callback, endPerf, endPerf⟩ := by
    rw [hfirst]
    simp [routerProvenance, routerStartTime]
  constructor
  · intro ds hres hmod
    refine ⟨ThreadMap.set threads threadId endPerf,
      ⟨moduleType, params, true, callback, endPerf, endPerf⟩, ?_, by ring⟩
    simp only [call_module_with, hres, hprov, hmod]
    simp
  · intro d hres hne
    refine ⟨ThreadMap.set threads threadId endPerf,
      ⟨moduleType, params, true, callback, endPerf, endPerf⟩, ?_, by ring⟩
    simp only [call_module_with, hres, hprov]
    simp [hne]

/-- Witness for C2 at concrete inputs: an empty thread map, the clearing
module, a fresh record; the attached provenance carries equal start and end
times. -/
theorem first_streaming_call_zero_duration_witness :
    (ThreadMap.get? [] 0 = none)
    ∧ ((∀ ds : AkariDataSet,
        (clearingModule.run (deepcopy sampleCallerData)).1 = ModuleResult.dataset ds →
        ds.module = none →
        ∃ tm prov,
          call_module_with clearingModule 0 sampleCallerData 0 true none [] 0 2 3
            = CallOutcome.ok (sampleCallerData.add (ds.setModule prov)) tm
          ∧ prov.endTime - prov.startTime = 0)
      ∧ (∀ d : AkariData,
        (clearingModule.run (deepcopy sampleCallerData)).1 = ModuleResult.data d →
        d.datasets ≠ [] →
        ∃ tm prov,
          call_module_with clearingModule 0 sampleCallerData 0 true none [] 0 2 3
            = CallOutcome.ok (d.setLastModule prov) tm
          ∧ prov.endTime - prov.startTime = 0)) :=
  ⟨rfl,
    first_streaming_call_zero_duration clearingModule 0 sampleCallerData 0 none [] 0 2 3 rfl⟩

/-- C3 (counterexample): when a module returns a full sequence whose last
record already carries provenance, the router does not keep it: the record
comes back with the provenance of this invocation instead of the one it
carried. -/
theorem provenance_not_kept_on_sequence_result :
    ((sequenceReturningModule.run (deepcopy ⟨[]⟩)).1
        = ModuleResult.data ⟨[{ module := some preexistingProv }]⟩)
    ∧ (call_module_with sequenceReturningModule 0 ⟨[]⟩ 0 false none [] 0 5 7).resultData?
        = some ⟨[{ module := some ⟨0, 0, false, none, 5, 7⟩ }]⟩
    ∧ (⟨0, 0, false, none, 5, 7⟩ : AkariDataModuleType) ≠ preexistingProv := by
  refine ⟨rfl, by rfl, by decide⟩

/-- C3 (amended): the router attaches its provenance to a single returned
record only when the record carries none, and keeps existing provenance on a
single returned record; but when the module returns a full non-empty sequence
the router overwrites the provenance of the last record unconditionally. -/
theorem provenance_attach_rules
    (m : AkariModule) (moduleType : AkariModuleType) (data : AkariData)
    (params : AkariModuleParams) (streaming : Bool) (callback : Option AkariModuleType)
    (threads : ThreadMap) (threadId : Nat) (currentPerf endPerf : ℚ) :
    (∀ ds : AkariDataSet, (m.run (deepcopy data)).1 = ModuleResult.dataset ds →
      ds.module = none →
      (call_module_with m moduleType data params streaming callback threads threadId
          currentPerf endPerf).resultData?
        = some (data.add (ds.setModule (routerProvenance moduleType params streaming
            callback (ThreadMap.get? threads threadId) data currentPerf endPerf))))
    ∧ (∀ ds : AkariDataSet, (m.run (deepcopy data)).1 = ModuleResult.dataset ds →
      ds.module ≠ none →
      (call_module_with m moduleType data params streaming callback threads threadId
          currentPerf endPerf).resultData?
        = some (data.add ds))
    ∧ (∀ d : AkariData, (m.run (deepcopy data)).1 = ModuleResult.data d →
      d.datasets ≠ [] →
      (call_module_with m moduleType data params streaming callback threads threadId
          currentPerf endPerf).resultData?
        = some (d.setLastModule (routerProvenance moduleType params streaming
            callback (ThreadMap.get? threads threadId) data currentPerf endPerf))) := by
  refine ⟨?_, ?_, ?_⟩
  · intro ds hres hmod
    simp only [call_module_with, hres, hmod]
    simp [CallOutcome.resultData?]
  · intro ds hres hmod
    simp only [call_module_with, hres]
    simp [CallOutcome.resultData?, hmod]
  · intro d hres hne
    simp only [call_module_with, hres]
    simp [CallOutcome.resultData?, hne]

/-- Witness for C3 (amended) at concrete inputs, exercising all three
branches: attach on a fresh record, keep on a provenance-carrying record, and
overwrite on a sequence result. -/
theorem provenance_attach_rules_witness :
    ((clearingModule.run (deepcopy ⟨[]⟩)).1
        = ModuleResult.dataset { text := some ⟨"out", none, []⟩ })
    ∧ (call_module_with clearingModule 0 ⟨[]⟩ 0 false none [] 0 5 7).resultData?
        = some (AkariData.add ⟨[]⟩ (AkariDataSet.setModule { text := some ⟨"out", none, []⟩ }
            (routerProvenance 0 0 false none (ThreadMap.get? [] 0) ⟨[]⟩ 5 7)))
    ∧ (call_module_with provCarryingModule 0 ⟨[]⟩ 0 false none [] 0 5 7).resultData?
        = some (AkariData.add ⟨[]⟩ { module := some preexistingProv })
    ∧ (call_module_with sequenceReturningModule 0 ⟨[]⟩ 0 false none [] 0 5 7).resultData?
        = some (AkariData.setLastModule ⟨[{ module := some preexistingProv }]⟩
            (routerProvenance 0 0 false none (ThreadMap.get? [] 0) ⟨[]⟩ 5 7)) :=
  ⟨rfl,
    (provenance_attach_rules clearingModule 0 ⟨[]⟩ 0 false none [] 0 5 7).1
      { text := some ⟨"out", none, []⟩ } rfl rfl,
    (provenance_attach_rules provCarryingModule 0 ⟨[]⟩ 0 false none [] 0 5 7).2.1
      { module := some preexistingProv } rfl (by simp),
    (provenance_attach_rules sequenceReturningModule 0 ⟨[]⟩ 0 false none [] 0 5 7).2.2
      ⟨[{ module := some preexistingProv }]⟩ rfl (by simp)⟩

end RouterTheorems

section RegistryTheorems

theorem find?_append_of_none {α : Type} {p : α → Bool} {l₁ l₂ : List α}
    (h : l₁.find? p = none) : (l₁ ++ l₂).find? p = l₂.find? p := by
  induction l₁ with
  | nil => simp
  | cons a t ih =>
    cases hp : p a with
    | true =>
      rw [List.find?_cons_of_pos _ hp] at h
      exact absurd h (by simp)
    | false =>
      rw [List.find?_cons_of_neg _ (by simp [hp])] at h
      rw [List.cons_append, List.find?_cons_of_neg _ (by simp [hp])]
      exact ih h

theorem find?_append_of_some {α : Type} {p : α → Bool} {l₁ l₂ : List α} {a : α}
    (h : l₁.find? p = some a) : (l₁ ++ l₂).find? p = some a := by
  induction l₁ with
  | nil => simp at h
  | cons b t ih =>
    cases hp : p b with
    | true =>
      rw [List.find?_cons_of_pos _ hp] at h
      rw [List.cons_append, List.find?_cons_of_pos _ hp]
      exact h
    | false =>
      rw [List.find?_cons_of_neg _ (by simp [hp])] at h
      rw [List.cons_append, List.find?_cons_of_neg _ (by simp [hp])]
      exact ih h

theorem lookup_append_of_none {l₁ l₂ : ModuleRegistry} {k : AkariModuleType}
    (h : ModuleRegistry.lookup l₁ k = none) :
    ModuleRegistry.lookup (l₁ ++ l₂) k = ModuleRegistry.lookup l₂ k := by
  unfold ModuleRegistry.lookup at h ⊢
  rw [find?_append_of_none (by simpa using h)]

theorem lookup_append_of_some {l₁ l₂ : ModuleRegistry} {k : AkariModuleType}
    {m : AkariModule} (h : ModuleRegistry.lookup l₁ k = some m) :
    ModuleRegistry.lookup (l₁ ++ l₂) k = some m := by
  unfold ModuleRegistry.lookup at h ⊢
  obtain ⟨p, hp, hp2⟩ : ∃ p, l₁.find? (fun q => q.1 == k) = some p ∧ p.2 = m := by
    cases hfind : l₁.find? (fun q => q.1 == k) with
    | none => rw [hfind] at h; simp at h
    | some p => rw [hfind] at h; simp at h; exact ⟨p, rfl, h⟩
  rw [find?_append_of_some hp]
  simp [hp2]

theorem lookup_cons_self {t : ModuleRegistry} {k : AkariModuleType} {w : AkariModule} :
    ModuleRegistry.lookup ((k, w) :: t) k = some w := by
  unfold ModuleRegistry.lookup
  rw [List.find?_cons_of_pos _ (by simp)]
  rfl

theorem lookup_cons_of_ne {t : ModuleRegistry} {k k2 : AkariModuleType}
    {w : AkariModule} (h : k2 ≠ k) :
    ModuleRegistry.lookup ((k, w) :: t) k2 = ModuleRegistry.lookup t k2 := by
  unfold ModuleRegistry.lookup
  rw [List.find?_cons_of_neg _ (by simpa using fun hk => h hk.symm)]

/-- C10: when `add_modules` hits an already-registered module type, it raises,
but everything the loop registered up to that point stays registered (the dict
is mutated in place, not rolled back), and the pre-existing registration of
the duplicated type itself is unchanged. -/
theorem add_modules_not_rolled_back
    (reg : ModuleRegistry) (pre post : List (AkariModuleType × AkariModule))
    (d : AkariModuleType) (v : AkariModule)
    (hfresh : ∀ p ∈ pre, ModuleRegistry.lookup reg p.1 = none)
    (hnodup : (pre.map Prod.fst).Nodup)
    (hdup : (ModuleRegistry.lookup reg d).isSome = true) :
    ((add_modules reg (pre ++ (d, v) :: post)).2.isSome = true)
    ∧ (add_modules reg (pre ++ (d, v) :: post)).1 = reg ++ pre
    ∧ ModuleRegistry.lookup (reg ++ pre) d = ModuleRegistry.lookup reg d
    ∧ ∀ p ∈ pre, ModuleRegistry.lookup (reg ++ pre) p.1 = some p.2 := by
  induction pre generalizing reg with
  | nil =>
    refine ⟨?_, by simp [add_modules, hdup], by simp, by simp⟩
    simp [add_modules, hdup]
  | cons hd tl ih =>
    obtain ⟨k, w⟩ := hd
    have hk : ModuleRegistry.lookup reg k = none := hfresh (k, w) (by simp)
    have hstep : add_modules reg (((k, w) :: tl) ++ (d, v) :: post)
        = add_modules (reg ++ [(k, w)]) (tl ++ (d, v) :: post) := by
      simp [add_modules, hk]
    have hnd := hnodup
    rw [List.map_cons] at hnd
    have hne : ∀ p ∈ tl, p.1 ≠ k := by
      intro p hp hpk
      exact (List.nodup_cons.mp hnd).1 (List.mem_map.mpr ⟨p, hp, hpk⟩)
    have hfresh2 : ∀ p ∈ tl, ModuleRegistry.lookup (reg ++ [(k, w)]) p.1 = none := by
      intro p hp
      rw [lookup_append_of_none (hfresh p (List.mem_cons_of_mem _ hp))]
      rw [lookup_cons_of_ne (hne p hp)]
      rfl
    have hdup2 : (ModuleRegistry.lookup (reg ++ [(k, w)]) d).isSome = true := by
      obtain ⟨x, hx⟩ := Option.isSome_iff_exists.mp hdup
      rw [lookup_append_of_some hx]
      rfl
    obtain ⟨h1, h2, h3, h4⟩ := ih (reg ++ [(k, w)])
      hfresh2 (List.nodup_cons.mp hnd).2 hdup2
    have hassoc : (reg ++ [(k, w)]) ++ tl = reg ++ ((k, w) :: tl) := by
      rw [List.append_assoc]
      rfl
    refine ⟨by rw [hstep]; exact h1, by rw [hstep, h2, hassoc], ?_, ?_⟩
    · rw [← hassoc, h3]
      obtain ⟨x, hx⟩ := Option.isSome_iff_exists.mp hdup
      rw [lookup_append_of_some hx, hx]
    · intro p hp
      rcases List.mem_cons.mp hp with hp1 | hp2
      · subst hp1
        rw [lookup_append_of_none hk]
        exact lookup_cons_self
      · rw [← hassoc]
        exact h4 p hp2

/-- Witness for C10 at a concrete batch: registry holding type 1, batch
registering fresh type 2 then duplicating type 1; the batch raises, type 2 is
registered, and type 1 keeps its original instance. -/
theorem add_modules_not_rolled_back_witness :
    (∀ p ∈ [((2 : AkariModuleType), provCarryingModule)],
      ModuleRegistry.lookup [(1, clearingModule)] p.1 = none)
    ∧ (([((2 : AkariModuleType), provCarryingModule)].map Prod.fst).Nodup)
    ∧ ((ModuleRegistry.lookup [(1, clearingModule)] 1).isSome = true)
    ∧ (((add_modules [(1, clearingModule)]
          ([(2, provCarryingModule)] ++ (1, sequenceReturningModule) :: [])).2.isSome = true)
      ∧ (add_modules [(1, clearingModule)]
          ([(2, provCarryingModule)] ++ (1, sequenceReturningModule) :: [])).1
          = [(1, clearingModule)] ++ [(2, provCarryingModule)]
      ∧ ModuleRegistry.lookup ([(1, clearingModule)] ++ [(2, provCarryingModule)]) 1
          = ModuleRegistry.lookup [(1, clearingModule)] 1
      ∧ ∀ p ∈ [((2 : AkariModuleType), provCarryingModule)],
          ModuleRegistry.lookup ([(1, clearingModule)] ++ [(2, provCarryingModule)]) p.1
            = some p.2) :=
  ⟨by intro p hp; rw [List.mem_singleton] at hp; subst hp; rfl,
    by simp,
    rfl,
    add_modules_not_rolled_back [(1, clearingModule)] [(2, provCarryingModule)] []
      1 sequenceReturningModule
      (by intro p hp; rw [List.mem_singleton] at hp; subst hp; rfl)
      (by simp)
      rfl⟩

end RegistryTheorems

section VadTheorems

theorem vadStep_functional (p : Vad.WebRTCVadParams) (hc : Bool)
    (s : Vad.VadState) (f : Vad.VadFrame) :
    (Vad.vadStep p hc s f).2.1 = Vad.functionalSpeech p s f := by
  unfold Vad.vadStep
  split <;> rfl

theorem vadStep_fired (p : Vad.WebRTCVadParams) (hc : Bool)
    (s : Vad.VadState) (f : Vad.VadFrame) :
    (Vad.vadStep p hc s f).2.2
      = Vad.fireCondition p hc (Vad.speechUpdate s f).callbacked
          (Vad.functionalSpeech p s f) := by
  unfold Vad.vadStep
  split <;> simp_all

theorem vadStep_buffer (p : Vad.WebRTCVadParams) (hc : Bool)
    (s : Vad.VadState) (f : Vad.VadFrame) :
    (Vad.vadStep p hc s f).1.audioBuffer
      = if (Vad.vadStep p hc s f).2.2 then [] else (Vad.speechUpdate s f).audioBuffer := by
  unfold Vad.vadStep
  split <;> rfl

theorem vadStep_no_fire_frozen (p : Vad.WebRTCVadParams) (hc : Bool)
    (s : Vad.VadState) (f : Vad.VadFrame)
    (hp : p.callbackWhenSpeechEnded = true) (hcb : s.callbacked = true)
    (hf : f.isSpeech = false) :
    Vad.vadStep p hc s f = (s, Vad.functionalSpeech p s f, false) := by
  have hs1 : Vad.speechUpdate s f = s := by
    simp [Vad.speechUpdate, hf]
  have hfire : Vad.fireCondition p hc s.callbacked
      (Vad.functionalSpeech p s f) = false := by
    simp [Vad.fireCondition, hp, hcb]
  unfold Vad.vadStep
  rw [hs1, hfire]
  simp

theorem vadRun_no_fire_of_callbacked (p : Vad.WebRTCVadParams) (hc : Bool)
    (hp : p.callbackWhenSpeechEnded = true) :
    ∀ (fs : List Vad.VadFrame) (s : Vad.VadState), s.callbacked = true →
      (∀ g ∈ fs, g.isSpeech = false) →
      ∀ pr ∈ (Vad.vadRun p hc s fs).2, pr.2 = false := by
  intro fs
  induction fs with
  | nil =>
    intro s _ _ pr hpr
    simp [Vad.vadRun] at hpr
  | cons f fs ih =>
    intro s hcb hall pr hpr
    have hstep := vadStep_no_fire_frozen p hc s f hp hcb (hall f (by simp))
    unfold Vad.vadRun at hpr
    rw [hstep] at hpr
    rcases List.mem_cons.mp hpr with h1 | h2
    · rw [h1]
    · exact ih s hcb (fun g hg => hall g (List.mem_cons_of_mem _ hg)) pr h2

/-- C4: with `callback_when_speech_ended`, a configured callback fires exactly
on a functionally non-speech frame whose segment has not been notified yet
(the flag being cleared only when raw speech resumes); once notified, no
further callback fires until raw speech recurs; on the frame sequence
[speech, speech, non-speech, non-speech] with the hysteresis window expired,
exactly one callback fires, at the first non-speech frame, and the
accumulated audio buffer ends up cleared. -/
theorem speech_end_callback_fires_once
    (p : Vad.WebRTCVadParams) (hc : Bool) (s : Vad.VadState) (f : Vad.VadFrame)
    (hp : p.callbackWhenSpeechEnded = true) :
    ((Vad.vadStep p hc s f).2.2 = true ↔
      hc = true ∧ Vad.functionalSpeech p s f = false
        ∧ (Vad.speechUpdate s f).callbacked = false)
    ∧ (∀ (fs : List Vad.VadFrame) (s0 : Vad.VadState), s0.callbacked = true →
        (∀ g ∈ fs, g.isSpeech = false) →
        ∀ pr ∈ (Vad.vadRun p hc s0 fs).2, pr.2 = false)
    ∧ ((Vad.vadRun ⟨0, true⟩ true Vad.initState
          [⟨true, 0, some [5]⟩, ⟨true, 1, some [6]⟩,
            ⟨false, 2, none⟩, ⟨false, 3, none⟩]).2.map Prod.snd
        = [false, false, true, false])
    ∧ ((Vad.vadRun ⟨0, true⟩ true Vad.initState
          [⟨true, 0, some [5]⟩, ⟨true, 1, some [6]⟩,
            ⟨false, 2, none⟩, ⟨false, 3, none⟩]).1.audioBuffer
        = []) := by
  refine ⟨?_, vadRun_no_fire_of_callbacked p hc hp, by norm_num [Vad.vadRun, Vad.vadStep, Vad.speechUpdate, Vad.functionalSpeech, Vad.fireCondition, Vad.initState], by norm_num [Vad.vadRun, Vad.vadStep, Vad.speechUpdate, Vad.functionalSpeech, Vad.fireCondition, Vad.initState]⟩
  rw [vadStep_fired]
  simp [Vad.fireCondition, hp]

/-- Witness for C4 at concrete inputs: a non-speech frame after unnotified
speech fires; after a notification, a run of non-speech frames stays silent. -/
theorem speech_end_callback_fires_once_witness :
    ((⟨0, true⟩ : Vad.WebRTCVadParams).callbackWhenSpeechEnded = true)
    ∧ (((Vad.vadStep ⟨0, true⟩ true ⟨1, false, [5]⟩ ⟨false, 2, none⟩).2.2 = true ↔
        true = true ∧ Vad.functionalSpeech ⟨0, true⟩ ⟨1, false, [5]⟩ ⟨false, 2, none⟩ = false
          ∧ (Vad.speechUpdate ⟨1, false, [5]⟩ ⟨false, 2, none⟩).callbacked = false)
      ∧ (∀ (fs : List Vad.VadFrame) (s0 : Vad.VadState), s0.callbacked = true →
          (∀ g ∈ fs, g.isSpeech = false) →
          ∀ pr ∈ (Vad.vadRun ⟨0, true⟩ true s0 fs).2, pr.2 = false)
      ∧ ((Vad.vadRun ⟨0, true⟩ true Vad.initState
            [⟨true, 0, some [5]⟩, ⟨true, 1, some [6]⟩,
              ⟨false, 2, none⟩, ⟨false, 3, none⟩]).2.map Prod.snd
          = [false, false, true, false])
      ∧ ((Vad.vadRun ⟨0, true⟩ true Vad.initState
            [⟨true, 0, some [5]⟩, ⟨true, 1, some [6]⟩,
              ⟨false, 2, none⟩, ⟨false, 3, none⟩]).1.audioBuffer
          = [])) :=
  ⟨rfl, speech_end_callback_fires_once ⟨0, true⟩ true ⟨1, false, [5]⟩ ⟨false, 2, none⟩ rfl⟩

/-- C5 (counterexample): a frame classified non-speech inside the hysteresis
window is functionally treated as speech, yet its chunk bytes are not appended
to the speech audio buffer: the buffer stays [9] instead of becoming
[9, 1, 2, 3]. -/
theorem hysteresis_frame_not_buffered :
    (Vad.functionalSpeech ⟨100, true⟩ ⟨0, false, [9]⟩ ⟨false, 1/20, some [1, 2, 3]⟩ = true)
    ∧ ((Vad.vadStep ⟨100, true⟩ true ⟨0, false, [9]⟩ ⟨false, 1/20, some [1, 2, 3]⟩).1.audioBuffer
        = [9])
    ∧ ([9] : Bytes) ≠ [9] ++ [1, 2, 3] := by
  refine ⟨by norm_num [Vad.vadRun, Vad.vadStep, Vad.speechUpdate, Vad.functionalSpeech, Vad.fireCondition, Vad.initState], by norm_num [Vad.vadRun, Vad.vadStep, Vad.speechUpdate, Vad.functionalSpeech, Vad.fireCondition, Vad.initState], by decide⟩

/-- C5 (amended): the chunk bytes are appended to the internal buffer only on
frames the raw VAD classifies as speech, and only when the chunk carries a
stream entry; a frame classified non-speech never extends the buffer, even
when hysteresis makes it functionally speech; independently, the buffer is
cleared when a callback fires. -/
theorem buffer_appends_only_on_raw_speech
    (p : Vad.WebRTCVadParams) (hc : Bool) (s : Vad.VadState) (f : Vad.VadFrame) :
    (∀ c : Bytes, f.isSpeech = true → f.chunk = some c →
      (Vad.speechUpdate s f).audioBuffer = s.audioBuffer ++ c)
    ∧ (f.isSpeech = true → f.chunk = none →
      (Vad.speechUpdate s f).audioBuffer = s.audioBuffer)
    ∧ (f.isSpeech = false →
      (Vad.speechUpdate s f).audioBuffer = s.audioBuffer)
    ∧ ((Vad.vadStep p hc s f).1.audioBuffer
        = if (Vad.vadStep p hc s f).2.2 then []
          else (Vad.speechUpdate s f).audioBuffer) := by
  refine ⟨?_, ?_, ?_, vadStep_buffer p hc s f⟩
  · intro c h1 h2
    simp [Vad.speechUpdate, h1, h2]
  · intro h1 h2
    simp [Vad.speechUpdate, h1, h2]
  · intro h1
    simp [Vad.speechUpdate, h1]

/-- Witness for C5 (amended) at concrete inputs: a raw speech frame with a
stream chunk appends, a hysteresis frame does not. -/
theorem buffer_appends_only_on_raw_speech_witness :
    ((⟨true, 0, some [7]⟩ : Vad.VadFrame).isSpeech = true)
    ∧ ((⟨true, 0, some [7]⟩ : Vad.VadFrame).chunk = some [7])
    ∧ (Vad.speechUpdate ⟨0, true, [9]⟩ ⟨true, 0, some [7]⟩).audioBuffer = [9] ++ [7]
    ∧ ((⟨false, 1/20, some [7]⟩ : Vad.VadFrame).isSpeech = false)
    ∧ (Vad.speechUpdate ⟨0, true, [9]⟩ ⟨false, 1/20, some [7]⟩).audioBuffer = [9] :=
  ⟨rfl, rfl,
    (buffer_appends_only_on_raw_speech ⟨100, true⟩ true ⟨0, true, [9]⟩
      ⟨true, 0, some [7]⟩).1 [7] rfl rfl,
    rfl,
    (buffer_appends_only_on_raw_speech ⟨100, true⟩ true ⟨0, true, [9]⟩
      ⟨false, 1/20, some [7]⟩).2.2.1 rfl⟩

/-- C6: a frame classified non-speech is reported as functional speech
exactly while strictly less than `speech_sleep_duration_ms` has elapsed since
the last raw speech classification; concretely, after speech at t = 0 s with a
100 ms window, a non-speech frame at t = 0.05 s reports true and one at
t = 0.15 s reports false. -/
theorem vad_hysteresis_report
    (p : Vad.WebRTCVadParams) (hc : Bool) (s : Vad.VadState) (f : Vad.VadFrame)
    (hraw : f.isSpeech = false) :
    ((Vad.vadStep p hc s f).2.1 = true ↔
      f.now - s.lastSpeechTime < p.speechSleepDurationMs / 1000)
    ∧ ((Vad.vadRun ⟨100, true⟩ false Vad.initState
          [⟨true, 0, none⟩, ⟨false, 1/20, none⟩]).2.map Prod.fst
        = [true, true])
    ∧ ((Vad.vadRun ⟨100, true⟩ false Vad.initState
          [⟨true, 0, none⟩, ⟨false, 3/20, none⟩]).2.map Prod.fst
        = [true, false]) := by
  refine ⟨?_, by norm_num [Vad.vadRun, Vad.vadStep, Vad.speechUpdate, Vad.functionalSpeech, Vad.fireCondition, Vad.initState], by norm_num [Vad.vadRun, Vad.vadStep, Vad.speechUpdate, Vad.functionalSpeech, Vad.fireCondition, Vad.initState]⟩
  rw [vadStep_functional]
  simp [Vad.functionalSpeech, hraw]

/-- Witness for C6 at a concrete frame: non-speech 0.05 s after speech with a
100 ms window reports functional speech. -/
theorem vad_hysteresis_report_witness :
    ((⟨false, 1/20, none⟩ : Vad.VadFrame).isSpeech = false)
    ∧ (((Vad.vadStep ⟨100, true⟩ false ⟨0, false, []⟩ ⟨false, 1/20, none⟩).2.1 = true ↔
        (1/20 : ℚ) - 0 < 100 / 1000)
      ∧ ((Vad.vadRun ⟨100, true⟩ false Vad.initState
            [⟨true, 0, none⟩, ⟨false, 1/20, none⟩]).2.map Prod.fst
          = [true, true])
      ∧ ((Vad.vadRun ⟨100, true⟩ false Vad.initState
            [⟨true, 0, none⟩, ⟨false, 3/20, none⟩]).2.map Prod.fst
          = [true, false])) :=
  ⟨rfl, vad_hysteresis_report ⟨100, true⟩ false ⟨0, false, []⟩ ⟨false, 1/20, none⟩ rfl⟩

end VadTheorems

section MicTheorems

theorem mic_threshold_eq {k sMs : ℕ} (hs : 0 < sMs) :
    ((k * sMs : ℕ) : ℚ) / (sMs : ℚ) = (k : ℚ) := by
  have hns : (sMs : ℚ) ≠ 0 := by
    exact_mod_cast Nat.pos_iff_ne_zero.mp hs
  push_cast
  field_simp

theorem micEvict_length_le {k sMs : ℕ} (hs : 0 < sMs) (frames : List Bytes)
    (h : frames.length ≤ k) :
    (Mic.micEvict (k * sMs) sMs frames).length ≤ k - 1 := by
  unfold Mic.micEvict
  rw [mic_threshold_eq hs]
  split
  · rename_i hge
    have h2 : k ≤ frames.length := by exact_mod_cast hge
    simp only [List.length_drop]
    omega
  · rename_i hlt
    have h2 : frames.length < k := by exact_mod_cast lt_of_not_le hlt
    omega

theorem micStep_length_bound {k sMs : ℕ} (hs : 0 < sMs) (hk : 1 ≤ k)
    (frames : List Bytes) (e : Option Bytes) (hlen : frames.length ≤ k - 1) :
    (Mic.micStep (k * sMs) sMs frames e).length ≤ k - 1 := by
  apply micEvict_length_le hs
  cases e with
  | none =>
    simp only [Mic.micAppend]
    omega
  | some c =>
    simp only [Mic.micAppend, List.length_append, List.length_singleton]
    omega

theorem micRun_aux_bound {k sMs : ℕ} (hs : 0 < sMs) (hk : 1 ≤ k) :
    ∀ (emits : List (Option Bytes)) (frames : List Bytes),
      frames.length ≤ k - 1 →
      (emits.foldl (Mic.micStep (k * sMs) sMs) frames).length ≤ k - 1 := by
  intro emits
  induction emits with
  | nil => intro frames h; exact h
  | cons e es ih =>
    intro frames h
    exact ih _ (micStep_length_bound hs hk frames e h)

/-- C8: with `destruction_ms = k * stream_duration_ms` (k at least 1), the
rolling chunk list of the mic capture loop never holds more than `k` chunks
after any iteration, and as soon as the count reaches the threshold
`destruction_ms / stream_duration_ms` the oldest chunk is dropped. -/
theorem mic_sliding_window_bound (k sMs : ℕ) (hs : 0 < sMs) (hk : 1 ≤ k) :
    (∀ emits : List (Option Bytes), (Mic.micRun (k * sMs) sMs emits).length ≤ k)
    ∧ (∀ (frames : List Bytes) (c : Bytes), k ≤ (frames ++ [c]).length →
        Mic.micStep (k * sMs) sMs frames (some c) = (frames ++ [c]).drop 1) := by
  constructor
  · intro emits
    have := micRun_aux_bound hs hk emits [] (by simp)
    unfold Mic.micRun
    omega
  · intro frames c hreach
    unfold Mic.micStep Mic.micAppend Mic.micEvict
    rw [mic_threshold_eq hs]
    rw [if_pos (by exact_mod_cast hreach)]

/-- Witness for C8 at concrete inputs: `destruction_ms = 2 * 100`, three
emitted chunks; the retained count stays at most 2 and the step at the
threshold drops the oldest chunk. -/
theorem mic_sliding_window_bound_witness :
    (0 < 100) ∧ (1 ≤ 2)
    ∧ ((∀ emits : List (Option Bytes), (Mic.micRun (2 * 100) 100 emits).length ≤ 2)
      ∧ (∀ (frames : List Bytes) (c : Bytes), 2 ≤ (frames ++ [c]).length →
          Mic.micStep (2 * 100) 100 frames (some c) = (frames ++ [c]).drop 1)) :=
  ⟨by decide, by decide, mic_sliding_window_bound 2 100 (by decide) (by decide)⟩

end MicTheorems

section SttTheorems

theorem sttAfterPushes_succ (n : ℕ) :
    sttAfterPushes (n + 1)
      = ⟨true, List.replicate (n + 1) (some [1]), true, [], false⟩ := by
  induction n with
  | zero => rfl
  | succ n ih =>
    have hchunk : Stt.extractChunk chunkInput = some [1] := rfl
    show (Stt.sttStreamCall (sttAfterPushes (n + 1)) pushParams chunkInput).1 = _
    rw [ih]
    simp only [Stt.sttStreamCall, hchunk, pushParams]
    simp [List.replicate_succ']

/-- C7 (counterexample): the audio-chunk queue of the streaming STT module is
not bounded by any fixed capacity: `n` chunk-bearing stream calls with no
worker consumption leave `n` chunks buffered, exceeding every candidate
capacity. -/
theorem stt_queue_not_bounded :
    ¬ ∃ c : ℕ, ∀ n : ℕ, (sttAfterPushes n).audioQueue.length ≤ c := by
  rintro ⟨c, h⟩
  have h1 := h (c + 1)
  rw [sttAfterPushes_succ c] at h1
  simp at h1

/-- C7 (amended): the audio-chunk queue is created without a capacity: while
the session is active, every chunk-bearing stream call appends one chunk, and
with no worker consumption the queue holds exactly `n` chunks after `n` such
calls, growing without bound. -/
theorem stt_queue_grows_per_push
    (s : Stt.SttState) (hactive : s.isStreamingActive = true) :
    ((Stt.sttStreamCall s pushParams chunkInput).1.audioQueue
        = s.audioQueue ++ [some [1]])
    ∧ ∀ n : ℕ, (sttAfterPushes n).audioQueue.length = n := by
  constructor
  · obtain ⟨a, q, t, d, fin⟩ := s
    subst hactive
    cases fin
    · rfl
    · rfl
  · intro n
    cases n with
    | zero => rfl
    | succ n =>
      rw [sttAfterPushes_succ n]
      simp

/-- Witness for C7 (amended) at a concrete active state with an empty queue:
one chunk-bearing call leaves one chunk buffered. -/
theorem stt_queue_grows_per_push_witness :
    ((⟨true, [], true, [], false⟩ : Stt.SttState).isStreamingActive = true)
    ∧ (((Stt.sttStreamCall ⟨true, [], true, [], false⟩ pushParams chunkInput).1.audioQueue
          = (⟨true, [], true, [], false⟩ : Stt.SttState).audioQueue ++ [some [1]])
      ∧ ∀ n : ℕ, (sttAfterPushes n).audioQueue.length = n) :=
  ⟨rfl, stt_queue_grows_per_push ⟨true, [], true, [], false⟩ rfl⟩

/-- C9: an `end_stream_flag` stream call on an idle STT session is a no-op:
it raises nothing, returns the whole session state unchanged (active flag,
queue, worker handle, transcript delta), and produces an empty dataset. -/
theorem stt_end_stream_idle_noop
    (s : Stt.SttState) (p : Stt.SttParams) (data : AkariData)
    (hflag : p.endStreamFlag = true) (hidle : s.isStreamingActive = false) :
    Stt.sttStreamCall s p data = (s, ({} : AkariDataSet)) := by
  unfold Stt.sttStreamCall
  rw [hflag, hidle]
  simp

/-- Witness for C9 at concrete inputs: an idle fresh session receiving an
end-of-stream call is returned untouched with an empty dataset. -/
theorem stt_end_stream_idle_noop_witness :
    ((⟨16000, true, true, true⟩ : Stt.SttParams).endStreamFlag = true)
    ∧ (Stt.initState.isStreamingActive = false)
    ∧ Stt.sttStreamCall Stt.initState ⟨16000, true, true, true⟩ chunkInput
        = (Stt.initState, ({} : AkariDataSet)) :=
  ⟨rfl, rfl,
    stt_end_stream_idle_noop Stt.initState ⟨16000, true, true, true⟩ chunkInput rfl rfl⟩

end SttTheorems

end Akari
